import Mathlib

set_option maxRecDepth 200000

/-!
Shallow embedding of the entity-extraction core of the property document
processor (`main.py`, class `PropertyDocumentProcessor`).

The rule patterns of the source are Python regular expressions, always
applied with `re.IGNORECASE` through `re.findall`.  We embed the regex
fragment actually used by the rule tables (literals, character classes,
alternation, greedy `*`/`+`/`?`/`{m,n}`, one trailing capturing group) as a
small syntax tree `RE` together with a backtracking matcher that produces
the list of possible post-match suffixes in Python's priority order
(leftmost alternative first, greedy repetition longest first).  The matcher
carries a fuel argument for totality; the fuel supplied by `runRE` bounds
the depth of the backtracking call tree, so it never runs out on the
inputs the pipeline feeds it.

Character classes `\s`, `\w`, `\d` are embedded at their ASCII meaning
(the documents handled by the pipeline are ASCII text).
-/

/-- Python whitespace (`str.strip`, regex `\s`), ASCII range. -/
def isPySpace (c : Char) : Bool :=
  c == ' ' || c == '\t' || c == '\n' || c == '\r' || c == '\x0b' || c == '\x0c'

/-- Python `str.strip()`: drop leading and trailing whitespace. -/
def pyStrip (l : List Char) : List Char :=
  ((l.dropWhile isPySpace).reverse.dropWhile isPySpace).reverse

/-- Regex `[A-Z]`. -/
def isUpperC (c : Char) : Bool := 'A'.toNat ≤ c.toNat && c.toNat ≤ 'Z'.toNat

/-- Regex `[a-z]`. -/
def isLowerC (c : Char) : Bool := 'a'.toNat ≤ c.toNat && c.toNat ≤ 'z'.toNat

/-- Regex `[A-Za-z]`. -/
def isAlphaC (c : Char) : Bool := isUpperC c || isLowerC c

/-- Regex `\d`. -/
def isDigitC (c : Char) : Bool := '0'.toNat ≤ c.toNat && c.toNat ≤ '9'.toNat

/-- Regex `\w` at its ASCII meaning. -/
def isWordC (c : Char) : Bool := isAlphaC c || isDigitC c || c == '_'

/-- Regex abstract syntax for the fragment used by the rule tables. -/
inductive RE where
  | eps : RE
  | lit : Char → RE
  | cls : (Char → Bool) → RE
  | seq : RE → RE → RE
  | alt : RE → RE → RE
  | opt : RE → RE
  | star : RE → RE

/-- Size of a regex, used to compute the matcher fuel. -/
def sizeRE : RE → Nat
  | RE.eps => 1
  | RE.lit _ => 1
  | RE.cls _ => 1
  | RE.seq a b => sizeRE a + sizeRE b + 1
  | RE.alt a b => sizeRE a + sizeRE b + 1
  | RE.opt a => sizeRE a + 1
  | RE.star a => sizeRE a + 1

/-- Literal match under `re.IGNORECASE` when `ci` is true. -/
def charMatch (ci : Bool) (c d : Char) : Bool :=
  if ci then c.toLower == d.toLower else c == d

/-- Character-class match; under `re.IGNORECASE` a character is accepted when
it or one of its case foldings is in the class. -/
def clsMatch (ci : Bool) (p : Char → Bool) (d : Char) : Bool :=
  p d || (ci && (p d.toLower || p d.toUpper))

/-- Backtracking matcher: all post-match suffixes of `s`, in Python's
priority order (first alternative first, greedy repetition longest first).
In `star`, repeat steps must consume at least one character, mirroring the
engine's refusal of empty loop iterations. -/
def mtch (ci : Bool) : Nat → RE → List Char → List (List Char)
  | 0, _, _ => []
  | _ + 1, RE.eps, s => [s]
  | _ + 1, RE.lit _, [] => []
  | _ + 1, RE.lit c, d :: s => if charMatch ci c d then [s] else []
  | _ + 1, RE.cls _, [] => []
  | _ + 1, RE.cls p, d :: s => if clsMatch ci p d then [s] else []
  | fuel + 1, RE.seq a b, s =>
      (mtch ci fuel a s).flatMap (fun s2 => mtch ci fuel b s2)
  | fuel + 1, RE.alt a b, s => mtch ci fuel a s ++ mtch ci fuel b s
  | fuel + 1, RE.opt a, s => mtch ci fuel a s ++ [s]
  | fuel + 1, RE.star a, s =>
      ((mtch ci fuel a s).filter (fun s2 => s2.length < s.length)).flatMap
        (fun s2 => mtch ci fuel (RE.star a) s2) ++ [s]

/-- Fuel bounding the depth of the backtracking call tree on `r`, `s`. -/
def fuelFor (r : RE) (s : List Char) : Nat := (s.length + 1) * (sizeRE r + 1)

/-- Run the matcher with adequate fuel, case-insensitively (`re.IGNORECASE`
is passed at every call site of the source). -/
def runRE (r : RE) (s : List Char) : List (List Char) :=
  mtch true (fuelFor r s) r s

/-- A rule pattern: every rule regex of the source has the shape
`pre(grp)` — a non-capturing part followed by one trailing capturing
group. -/
structure Pat where
  pre : RE
  grp : RE

/-- Attempt a match of `p` anchored at the start of `s`: on success, the
substring captured by the group and the suffix after the whole match.
Alternatives of `pre` are tried in priority order; the first one after
which `grp` matches at all wins, and `grp` captures along its own first
(greediest) alternative — Python's backtracking behavior. -/
def matchGroupAt (p : Pat) (s : List Char) : Option (List Char × List Char) :=
  (runRE p.pre s).findSome? (fun s1 =>
    match (runRE p.grp s1).head? with
    | some s2 => some (s1.take (s1.length - s2.length), s2)
    | none => none)

/-- Worker for `findall`: scan left to right; after a non-empty match
resume at its end, after an empty match or a failure advance one
character. -/
def findallAux (p : Pat) : Nat → List Char → List (List Char)
  | 0, _ => []
  | _ + 1, [] =>
    match matchGroupAt p [] with
    | some (cap, _) => [cap]
    | none => []
  | fuel + 1, c :: s1 =>
    match matchGroupAt p (c :: s1) with
    | some (cap, rest) =>
        if rest.length < s1.length + 1 then cap :: findallAux p fuel rest
        else cap :: findallAux p fuel s1
    | none => findallAux p fuel s1

/-- Python `re.findall(pattern, text, re.IGNORECASE)`, returning the list
of group captures of the non-overlapping matches, left to right. -/
def findall (p : Pat) (s : List Char) : List (List Char) :=
  findallAux p (s.length + 1) s

/-- Worker for `leftmostCap`. -/
def leftmostCapAux (p : Pat) : Nat → List Char → Option (List Char)
  | 0, _ => none
  | _ + 1, [] =>
    match matchGroupAt p [] with
    | some (cap, _) => some cap
    | none => none
  | fuel + 1, c :: s1 =>
    match matchGroupAt p (c :: s1) with
    | some (cap, _) => some cap
    | none => leftmostCapAux p fuel s1

/-- The capture of the leftmost match of `p` in `s`, if any. -/
def leftmostCap (p : Pat) (s : List Char) : Option (List Char) :=
  leftmostCapAux p (s.length + 1) s

/-- Keys of an ordered string-to-string mapping. -/
def dictKeys (d : List (String × String)) : List String := d.map Prod.fst

/-- Python `d[k]` as an option: value at the first occurrence of `k`. -/
def dictGet : List (String × String) → String → Option String
  | [], _ => none
  | kv :: rest, k => if kv.1 = k then some kv.2 else dictGet rest k

/-- Python `d[k] = v` on an insertion-ordered dict: overwrite in place if
the key is present, append otherwise. -/
def dictSet : List (String × String) → String → String → List (String × String)
  | [], k, v => [(k, v)]
  | kv :: rest, k, v =>
      if kv.1 = k then (k, v) :: rest else kv :: dictSet rest k v

/-- Python `d.update(other)`: fold `other` into `d`, later writes winning. -/
def dictUpdate (d other : List (String × String)) : List (String × String) :=
  other.foldl (fun acc kv => dictSet acc kv.1 kv.2) d

/-- A captured substring, cleaned up as the source does: `match.strip()`. -/
def stripStr (cap : List Char) : String := String.mk (pyStrip cap)

/-- One step of `_extract_with_patterns`: `re.findall`, and if the match
list is non-empty store the first capture, stripped. -/
def extractStep (text : String) (entities : List (String × String))
    (kp : String × Pat) : List (String × String) :=
  match (findall kp.2 text.data).head? with
  | some cap => dictSet entities kp.1 (stripStr cap)
  | none => entities

/-- `PropertyDocumentProcessor._extract_with_patterns`. -/
def _extract_with_patterns (text : String) (pats : List (String × Pat)) :
    List (String × String) :=
  pats.foldl (extractStep text) []

/-- Regex for a literal string (a sequence of literal characters). -/
def strRE (s : String) : RE :=
  s.data.foldr (fun c r => RE.seq (RE.lit c) r) RE.eps

/-- Greedy `+`. -/
def plusRE (r : RE) : RE := RE.seq r (RE.star r)

/-- Exactly `n` copies of `r`, as used by `{n}`. -/
def repExact (r : RE) : Nat → RE
  | 0 => RE.eps
  | n + 1 => RE.seq r (repExact r n)

/-- Greedy `{0,n}`: prefer more copies, as the engine does. -/
def upToRE (r : RE) : Nat → RE
  | 0 => RE.eps
  | n + 1 => RE.opt (RE.seq r (upToRE r n))

/-- Greedy bounded repetition `{m,n}`. -/
def repRange (r : RE) (m n : Nat) : RE :=
  RE.seq (repExact r m) (upToRE r (n - m))

/-- Regex `[:\s]+`, the label separator of the labeled-field patterns. -/
def labelSepRE : RE := plusRE (RE.cls (fun c => c == ':' || isPySpace c))

/-- Regex `\d`. -/
def digitRE : RE := RE.cls isDigitC

/-- Regex `[slash dash]`. -/
def dateSepRE : RE := RE.cls (fun c => c == '/' || c == '-')

/-- Regex `\d{1,2}[slash dash]\d{1,2}[slash dash]\d{2,4}`, the date shape shared by all
date-valued rules. -/
def dateShapeRE : RE :=
  RE.seq (repRange digitRE 1 2)
    (RE.seq dateSepRE
      (RE.seq (repRange digitRE 1 2)
        (RE.seq dateSepRE (repRange digitRE 2 4))))

/-- Regex `\$\d+(?:\.\d{2})?`, the money shape. -/
def moneyRE : RE :=
  RE.seq (RE.lit '$')
    (RE.seq (plusRE digitRE)
      (RE.opt (RE.seq (RE.lit '.') (repExact digitRE 2))))

/-- Rule `tenant_name`: `(?:tenant|lessee)[:\s]+([A-Za-z\s\.]+)`. -/
def tenant_name_pat : Pat :=
  ⟨RE.seq (RE.alt (strRE "tenant") (strRE "lessee")) labelSepRE,
   plusRE (RE.cls (fun c => isAlphaC c || isPySpace c || c == '.'))⟩

/-- Rule `property_address`: `(?:property|address)[:\s]+([\d\w\s,]+)`. -/
def property_address_pat : Pat :=
  ⟨RE.seq (RE.alt (strRE "property") (strRE "address")) labelSepRE,
   plusRE (RE.cls (fun c => isDigitC c || isWordC c || isPySpace c || c == ','))⟩

/-- Rule `lease_term`:
`(?:term|duration)[:\s]+(\d+\s*(?:months|years|month|year))`. -/
def lease_term_pat : Pat :=
  ⟨RE.seq (RE.alt (strRE "term") (strRE "duration")) labelSepRE,
   RE.seq (plusRE digitRE)
     (RE.seq (RE.star (RE.cls isPySpace))
       (RE.alt (strRE "months")
         (RE.alt (strRE "years") (RE.alt (strRE "month") (strRE "year")))))⟩

/-- Rule `rent_amount`: `(?:rent|monthly payment)[:\s]+(\$\d+(?:\.\d{2})?)`. -/
def rent_amount_pat : Pat :=
  ⟨RE.seq (RE.alt (strRE "rent") (strRE "monthly payment")) labelSepRE, moneyRE⟩

/-- Rule `security_deposit`:
`(?:security deposit|deposit)[:\s]+(\$\d+(?:\.\d{2})?)`. -/
def security_deposit_pat : Pat :=
  ⟨RE.seq (RE.alt (strRE "security deposit") (strRE "deposit")) labelSepRE,
   moneyRE⟩

/-- Rule `start_date`:
`(?:start date|commencement)[:\s]+(\d{1,2}[slash dash]\d{1,2}[slash dash]\d{2,4})`. -/
def start_date_pat : Pat :=
  ⟨RE.seq (RE.alt (strRE "start date") (strRE "commencement")) labelSepRE,
   dateShapeRE⟩

/-- Rule `end_date`:
`(?:end date|termination)[:\s]+(\d{1,2}[slash dash]\d{1,2}[slash dash]\d{2,4})`. -/
def end_date_pat : Pat :=
  ⟨RE.seq (RE.alt (strRE "end date") (strRE "termination")) labelSepRE,
   dateShapeRE⟩

/-- The lease rule table of `_extract_lease_entities`. -/
def lease_patterns : List (String × Pat) :=
  [("tenant_name", tenant_name_pat),
   ("property_address", property_address_pat),
   ("lease_term", lease_term_pat),
   ("rent_amount", rent_amount_pat),
   ("security_deposit", security_deposit_pat),
   ("start_date", start_date_pat),
   ("end_date", end_date_pat)]

/-- Rule `invoice_number`: `(?:invoice\s*#|no\.)[:\s]+([A-Z0-9-]+)`. -/
def invoice_number_pat : Pat :=
  ⟨RE.seq
     (RE.alt (RE.seq (strRE "invoice") (RE.seq (RE.star (RE.cls isPySpace)) (RE.lit '#')))
       (RE.seq (strRE "no") (RE.lit '.')))
     labelSepRE,
   plusRE (RE.cls (fun c => isUpperC c || isDigitC c || c == '-'))⟩

/-- Rule `invoice_date`: `(?:date)[:\s]+(\d{1,2}[slash dash]\d{1,2}[slash dash]\d{2,4})`. -/
def invoice_date_pat : Pat := ⟨RE.seq (strRE "date") labelSepRE, dateShapeRE⟩

/-- Rule `due_date`: `(?:due date)[:\s]+(\d{1,2}[slash dash]\d{1,2}[slash dash]\d{2,4})`. -/
def due_date_pat : Pat := ⟨RE.seq (strRE "due date") labelSepRE, dateShapeRE⟩

/-- Rule `total_amount`: `(?:total|amount due)[:\s]+(\$\d+(?:\.\d{2})?)`. -/
def total_amount_pat : Pat :=
  ⟨RE.seq (RE.alt (strRE "total") (strRE "amount due")) labelSepRE, moneyRE⟩

/-- Rule `vendor_name`: `(?:from|vendor)[:\s]+([A-Za-z\s&\.]+)`. -/
def vendor_name_pat : Pat :=
  ⟨RE.seq (RE.alt (strRE "from") (strRE "vendor")) labelSepRE,
   plusRE (RE.cls (fun c => isAlphaC c || isPySpace c || c == '&' || c == '.'))⟩

/-- Rule `property_unit`: `(?:property|unit)[:\s]+([A-Z0-9\s-]+)`. -/
def property_unit_pat : Pat :=
  ⟨RE.seq (RE.alt (strRE "property") (strRE "unit")) labelSepRE,
   plusRE (RE.cls (fun c => isUpperC c || isDigitC c || isPySpace c || c == '-'))⟩

/-- The invoice rule table of `_extract_invoice_entities`. -/
def invoice_patterns : List (String × Pat) :=
  [("invoice_number", invoice_number_pat),
   ("invoice_date", invoice_date_pat),
   ("due_date", due_date_pat),
   ("total_amount", total_amount_pat),
   ("vendor_name", vendor_name_pat),
   ("property_unit", property_unit_pat)]

/-- Rule `full_name`: `([A-Z][a-z]+\s+[A-Z][a-z]+)`. -/
def full_name_pat : Pat :=
  ⟨RE.eps,
   RE.seq (RE.cls isUpperC)
     (RE.seq (plusRE (RE.cls isLowerC))
       (RE.seq (plusRE (RE.cls isPySpace))
         (RE.seq (RE.cls isUpperC) (plusRE (RE.cls isLowerC)))))⟩

/-- Rule `date_of_birth`: `(\d{1,2}[slash dash]\d{1,2}[slash dash]\d{2,4})`. -/
def date_of_birth_pat : Pat := ⟨RE.eps, dateShapeRE⟩

/-- Rule `id_number`: `([A-Z0-9]{8,12})`. -/
def id_number_pat : Pat :=
  ⟨RE.eps, repRange (RE.cls (fun c => isUpperC c || isDigitC c)) 8 12⟩

/-- Rule `expiry_date`: `(\d{1,2}[slash dash]\d{1,2}[slash dash]\d{2,4})` — textually the
same pattern as `date_of_birth`. -/
def expiry_date_pat : Pat := ⟨RE.eps, dateShapeRE⟩

/-- Rule `address`: `(\d+\s+[A-Za-z\s]+,?\s+[A-Za-z\s]+,?\s+[A-Z]{2})`. -/
def address_pat : Pat :=
  ⟨RE.eps,
   RE.seq (plusRE digitRE)
     (RE.seq (plusRE (RE.cls isPySpace))
       (RE.seq (plusRE (RE.cls (fun c => isAlphaC c || isPySpace c)))
         (RE.seq (RE.opt (RE.lit ','))
           (RE.seq (plusRE (RE.cls isPySpace))
             (RE.seq (plusRE (RE.cls (fun c => isAlphaC c || isPySpace c)))
               (RE.seq (RE.opt (RE.lit ','))
                 (RE.seq (plusRE (RE.cls isPySpace))
                   (repExact (RE.cls isUpperC) 2))))))))⟩

/-- The id-document rule table of `_extract_id_entities`. -/
def id_patterns : List (String × Pat) :=
  [("full_name", full_name_pat),
   ("date_of_birth", date_of_birth_pat),
   ("id_number", id_number_pat),
   ("expiry_date", expiry_date_pat),
   ("address", address_pat)]

/-- `PropertyDocumentProcessor._extract_lease_entities`. -/
def _extract_lease_entities (text : String) : List (String × String) :=
  _extract_with_patterns text lease_patterns

/-- `PropertyDocumentProcessor._extract_invoice_entities`. -/
def _extract_invoice_entities (text : String) : List (String × String) :=
  _extract_with_patterns text invoice_patterns

/-- `PropertyDocumentProcessor._extract_id_entities`. -/
def _extract_id_entities (text : String) : List (String × String) :=
  _extract_with_patterns text id_patterns

/-- `PropertyDocumentProcessor.extract_entities`: dispatch on the document
type label; any label other than the three typed ones (including
`"unknown"`) takes the fallback branch that starts from an empty dict and
merges all three rule sets in order. -/
def extract_entities (text : String) (doc_type : String) :
    List (String × String) :=
  if doc_type = "lease" then _extract_lease_entities text
  else if doc_type = "invoice" then _extract_invoice_entities text
  else if doc_type = "id_document" then _extract_id_entities text
  else
    dictUpdate
      (dictUpdate (dictUpdate [] (_extract_lease_entities text))
        (_extract_invoice_entities text))
      (_extract_id_entities text)

/-- Shape of the result of `process_document`: the source returns a dict
whose keys differ between the error case and the success case; optional
fields model key absence. -/
structure DocumentRecord where
  error : Option String
  document_type : Option String
  extracted_text : Option String
  entities : Option (List (String × String))
  processing_date : Option String
  file_name : String
  text_length : Option Nat
deriving DecidableEq

/-- `PropertyDocumentProcessor.process_document`, modelled over the text
already recovered by the text-extraction adapters (external collaborators)
together with the file's base name; the classifier is an opaque function
argument and the timestamp an opaque string, both irrelevant to the
claims. -/
def process_document (classify : String → String) (now : String)
    (file_name text : String) : DocumentRecord :=
  if pyStrip text.data = [] then
    { error := some "No text could be extracted from document",
      document_type := none, extracted_text := none, entities := none,
      processing_date := none, file_name := file_name, text_length := none }
  else
    let doc_type := classify text
    { error := none,
      document_type := some doc_type,
      extracted_text :=
        some (if text.length > 1000 then String.mk (text.data.take 1000) ++ "..."
              else text),
      entities := some (extract_entities text doc_type),
      processing_date := some now,
      file_name := file_name,
      text_length := some text.length }

/-- The sample lease text of the end-to-end scenario. -/
def leaseSampleText : String :=
  "RESIDENTIAL LEASE AGREEMENT\nTenant: John Smith\nProperty Address: 123 Main Street, Apartment 4B, New York, NY 10001\nLease Term: 12 months\nMonthly Rent: $2000.00\nSecurity Deposit: $2000.00\nStart Date: 01/01/2024\nEnd Date: 12/31/2024"

/-- The sample invoice text of the end-to-end scenario. -/
def invoiceSampleText : String :=
  "INVOICE #INV-2024-001\nDate: 01/15/2024\nDue Date: 02/15/2024\nFrom: Property Management Inc.\nProperty: Unit 4B - 123 Main Street\nTotal Amount Due: $2000.00"

/-- Demonstration rule modelling the Python pattern `a(b*)`, whose group can
capture the empty string. -/
def empty_capture_demo : Pat := ⟨RE.lit 'a', RE.star (RE.lit 'b')⟩

/-- A 1001-character extracted text, one character past the display
truncation threshold of `process_document`. -/
def longSampleText : String := String.mk (List.replicate 1001 'a')

theorem dictGet_dictSet_self (d : List (String × String)) (k v : String) :
    dictGet (dictSet d k v) k = some v := by
  induction d with
  | nil => simp [dictSet, dictGet]
  | cons kv rest ih =>
    by_cases h : kv.1 = k
    · simp [dictSet, h, dictGet]
    · simp [dictSet, h, dictGet, ih]

theorem dictGet_dictSet_ne (d : List (String × String)) (k v k' : String)
    (h : k' ≠ k) : dictGet (dictSet d k v) k' = dictGet d k' := by
  induction d with
  | nil => simp [dictSet, dictGet, Ne.symm h]
  | cons kv rest ih =>
    by_cases hk : kv.1 = k
    · simp [dictSet, hk, dictGet, Ne.symm h]
    · simp [dictSet, hk, dictGet, ih]

@[simp] theorem dictKeys_nil : dictKeys [] = [] := rfl

@[simp] theorem dictKeys_cons (kv : String × String) (d : List (String × String)) :
    dictKeys (kv :: d) = kv.1 :: dictKeys d := rfl

theorem mem_dictKeys_dictSet (d : List (String × String)) (k v k' : String) :
    k' ∈ dictKeys (dictSet d k v) ↔ k' = k ∨ k' ∈ dictKeys d := by
  induction d with
  | nil => simp [dictSet]
  | cons kv rest ih =>
    by_cases hk : kv.1 = k
    · rw [show dictSet (kv :: rest) k v = (k, v) :: rest from by simp [dictSet, hk]]
      rw [dictKeys_cons, dictKeys_cons, hk]
      simp [List.mem_cons]
    · rw [show dictSet (kv :: rest) k v = kv :: dictSet rest k v from by simp [dictSet, hk]]
      rw [dictKeys_cons, dictKeys_cons]
      simp only [List.mem_cons, ih]
      tauto

theorem nodup_dictKeys_dictSet (d : List (String × String)) (k v : String)
    (h : (dictKeys d).Nodup) : (dictKeys (dictSet d k v)).Nodup := by
  induction d with
  | nil => simp [dictSet, dictKeys]
  | cons kv rest ih =>
    rw [dictKeys_cons, List.nodup_cons] at h
    by_cases hk : kv.1 = k
    · rw [show dictSet (kv :: rest) k v = (k, v) :: rest from by simp [dictSet, hk]]
      rw [dictKeys_cons, List.nodup_cons]
      exact ⟨hk ▸ h.1, h.2⟩
    · rw [show dictSet (kv :: rest) k v = kv :: dictSet rest k v from by simp [dictSet, hk]]
      rw [dictKeys_cons, List.nodup_cons]
      refine ⟨?_, ih h.2⟩
      rw [mem_dictKeys_dictSet]
      push_neg
      exact ⟨hk, h.1⟩

theorem dictGet_eq_none_iff (d : List (String × String)) (k : String) :
    dictGet d k = none ↔ k ∉ dictKeys d := by
  induction d with
  | nil => simp [dictGet]
  | cons kv rest ih =>
    rw [dictKeys_cons]
    by_cases h : kv.1 = k
    · simp [dictGet, h]
    · simp only [dictGet, if_neg h, ih, List.mem_cons]
      constructor
      · intro hn hor
        rcases hor with hor | hor
        · exact h hor.symm
        · exact hn hor
      · intro hn hmem
        exact hn (Or.inr hmem)

theorem dictSet_of_not_mem (d : List (String × String)) (k v : String)
    (h : k ∉ dictKeys d) : dictSet d k v = d ++ [(k, v)] := by
  induction d with
  | nil => simp [dictSet]
  | cons kv rest ih =>
    rw [dictKeys_cons, List.mem_cons] at h
    push_neg at h
    simp [dictSet, Ne.symm h.1, ih h.2]

theorem dictUpdate_of_disjoint (d2 d1 : List (String × String))
    (hd : (dictKeys d2).Nodup) (hdisj : ∀ k ∈ dictKeys d2, k ∉ dictKeys d1) :
    dictUpdate d1 d2 = d1 ++ d2 := by
  induction d2 generalizing d1 with
  | nil => simp [dictUpdate]
  | cons kv rest ih =>
    rw [dictKeys_cons, List.nodup_cons] at hd
    have hkv1 : kv.1 ∉ dictKeys d1 := hdisj kv.1 (by rw [dictKeys_cons]; exact List.mem_cons_self _ _)
    have h1 : dictUpdate d1 (kv :: rest) = dictUpdate (dictSet d1 kv.1 kv.2) rest := rfl
    rw [h1, dictSet_of_not_mem _ _ _ hkv1, ih _ hd.2]
    · simp
    · intro k hk
      rw [show dictKeys (d1 ++ [(kv.1, kv.2)]) = dictKeys d1 ++ [kv.1] by
            simp [dictKeys]]
      simp only [List.mem_append, List.mem_singleton]
      push_neg
      refine ⟨hdisj k (by rw [dictKeys_cons]; exact List.mem_cons_of_mem _ hk), ?_⟩
      intro hcontra
      exact hd.1 (hcontra ▸ hk)

theorem dictUpdate_nil_left (d : List (String × String))
    (hd : (dictKeys d).Nodup) : dictUpdate [] d = d := by
  have h := dictUpdate_of_disjoint d [] hd (by simp)
  simpa using h

theorem dictGet_dictUpdate (d2 d1 : List (String × String)) (k : String)
    (hd : (dictKeys d2).Nodup) :
    dictGet (dictUpdate d1 d2) k =
      match dictGet d2 k with
      | some v => some v
      | none => dictGet d1 k := by
  induction d2 generalizing d1 with
  | nil => simp [dictUpdate, dictGet]
  | cons kv rest ih =>
    rw [dictKeys_cons, List.nodup_cons] at hd
    have h1 : dictUpdate d1 (kv :: rest) = dictUpdate (dictSet d1 kv.1 kv.2) rest := rfl
    rw [h1, ih _ hd.2]
    by_cases hk : kv.1 = k
    · have hnone : dictGet rest k = none := by
        rw [dictGet_eq_none_iff]
        exact hk ▸ hd.1
      simp [hnone, dictGet, hk, dictGet_dictSet_self]
    · rw [dictGet_dictSet_ne _ _ _ _ (Ne.symm hk)]
      simp [dictGet, hk]

theorem nodup_dictKeys_extractStep (text : String) (acc : List (String × String))
    (kp : String × Pat) (h : (dictKeys acc).Nodup) :
    (dictKeys (extractStep text acc kp)).Nodup := by
  unfold extractStep
  cases (findall kp.2 text.data).head? with
  | none => exact h
  | some cap => exact nodup_dictKeys_dictSet _ _ _ h

theorem nodup_dictKeys_foldl_extractStep (text : String)
    (pats : List (String × Pat)) (acc : List (String × String))
    (h : (dictKeys acc).Nodup) :
    (dictKeys (pats.foldl (extractStep text) acc)).Nodup := by
  induction pats generalizing acc with
  | nil => exact h
  | cons kp rest ih =>
    rw [List.foldl_cons]
    exact ih _ (nodup_dictKeys_extractStep _ _ _ h)

theorem nodup_dictKeys_extract (text : String) (pats : List (String × Pat)) :
    (dictKeys (_extract_with_patterns text pats)).Nodup :=
  nodup_dictKeys_foldl_extractStep text pats [] (by simp)

theorem dictGet_extractStep_ne (text : String) (acc : List (String × String))
    (kp : String × Pat) (k : String) (h : kp.1 ≠ k) :
    dictGet (extractStep text acc kp) k = dictGet acc k := by
  unfold extractStep
  cases (findall kp.2 text.data).head? with
  | none => rfl
  | some cap => exact dictGet_dictSet_ne _ _ _ _ (Ne.symm h)

theorem dictGet_foldl_of_not_mem (text : String) (pats : List (String × Pat))
    (acc : List (String × String)) (k : String)
    (h : k ∉ pats.map Prod.fst) :
    dictGet (pats.foldl (extractStep text) acc) k = dictGet acc k := by
  induction pats generalizing acc with
  | nil => rfl
  | cons kp rest ih =>
    rw [List.map_cons, List.mem_cons] at h
    push_neg at h
    rw [List.foldl_cons, ih _ h.2, dictGet_extractStep_ne _ _ _ _ (Ne.symm h.1)]

theorem dictGet_foldl_extract (text : String) (pats : List (String × Pat))
    (acc : List (String × String)) (k : String) (p : Pat)
    (hnd : (pats.map Prod.fst).Nodup) (hmem : (k, p) ∈ pats)
    (hacc : dictGet acc k = none) :
    dictGet (pats.foldl (extractStep text) acc) k =
      Option.map stripStr (findall p text.data).head? := by
  induction pats generalizing acc with
  | nil => cases hmem
  | cons kp rest ih =>
    rw [List.map_cons, List.nodup_cons] at hnd
    rw [List.foldl_cons]
    rcases List.mem_cons.mp hmem with heq | hmemr
    · have hk1 : kp.1 = k := by rw [← heq]
      have hp : kp.2 = p := by rw [← heq]
      have hknot : k ∉ rest.map Prod.fst := hk1 ▸ hnd.1
      rw [dictGet_foldl_of_not_mem _ _ _ _ hknot]
      unfold extractStep
      rw [hp]
      cases hh : (findall p text.data).head? with
      | none => simpa using hacc
      | some cap =>
          rw [hk1]
          simp [dictGet_dictSet_self acc k (stripStr cap)]
    · have hne : kp.1 ≠ k := by
        intro hcontra
        exact hnd.1 (hcontra ▸ List.mem_map_of_mem Prod.fst hmemr)
      refine ih _ hnd.2 hmemr ?_
      rw [dictGet_extractStep_ne _ _ _ _ hne]
      exact hacc

theorem dictGet_extract_with_patterns (text : String)
    (pats : List (String × Pat)) (k : String) (p : Pat)
    (hnd : (pats.map Prod.fst).Nodup) (hmem : (k, p) ∈ pats) :
    dictGet (_extract_with_patterns text pats) k =
      Option.map stripStr (findall p text.data).head? :=
  dictGet_foldl_extract text pats [] k p hnd hmem rfl

theorem findallAux_head_eq (p : Pat) (fuel : Nat) (s : List Char) :
    (findallAux p fuel s).head? = leftmostCapAux p fuel s := by
  induction fuel generalizing s with
  | zero => rfl
  | succ fuel ih =>
    cases s with
    | nil =>
      cases hm : matchGroupAt p [] with
      | some capRest =>
          obtain ⟨cap, rest⟩ := capRest
          simp [findallAux, leftmostCapAux, hm]
      | none => simp [findallAux, leftmostCapAux, hm]
    | cons c s1 =>
      cases hm : matchGroupAt p (c :: s1) with
      | some capRest =>
          obtain ⟨cap, rest⟩ := capRest
          by_cases hlen : rest.length < s1.length + 1
          · simp [findallAux, leftmostCapAux, hm, hlen]
          · simp [findallAux, leftmostCapAux, hm, hlen]
      | none => simp [findallAux, leftmostCapAux, hm, ih]

theorem findall_head_eq_leftmostCap (p : Pat) (s : List Char) :
    (findall p s).head? = leftmostCap p s :=
  findallAux_head_eq p (s.length + 1) s

/-- C1: for every text, extracting entities with documentType = unknown
returns exactly the mapping obtained by applying the lease rule set, then
the invoice rule set, then the id_document rule set to the same text
independently and merging them left to right; on any shared field name the
later rule set's value overwrites the earlier one's (id_document over
invoice over lease), as the per-key characterization states. -/
theorem c1_unknown_is_merged (text : String) :
    extract_entities text "unknown" =
      dictUpdate
        (dictUpdate (_extract_lease_entities text) (_extract_invoice_entities text))
        (_extract_id_entities text)
    ∧ ∀ k : String,
        dictGet (extract_entities text "unknown") k =
          match dictGet (_extract_id_entities text) k with
          | some v => some v
          | none =>
            match dictGet (_extract_invoice_entities text) k with
            | some v => some v
            | none => dictGet (_extract_lease_entities text) k := by
  have hL : (dictKeys (_extract_lease_entities text)).Nodup :=
    nodup_dictKeys_extract text lease_patterns
  have hI : (dictKeys (_extract_invoice_entities text)).Nodup :=
    nodup_dictKeys_extract text invoice_patterns
  have hD : (dictKeys (_extract_id_entities text)).Nodup :=
    nodup_dictKeys_extract text id_patterns
  have hunk : extract_entities text "unknown" =
      dictUpdate
        (dictUpdate (_extract_lease_entities text) (_extract_invoice_entities text))
        (_extract_id_entities text) := by
    unfold extract_entities
    rw [if_neg (by decide), if_neg (by decide), if_neg (by decide),
        dictUpdate_nil_left _ hL]
  refine ⟨hunk, fun k => ?_⟩
  rw [hunk, dictGet_dictUpdate _ _ _ hD]
  cases hDk : dictGet (_extract_id_entities text) k with
  | some v => rfl
  | none =>
    simp only []
    exact dictGet_dictUpdate _ _ _ hI

/-- C5: for every text and every rule `(k, p)` of an applied rule set with
distinct field names, the text is searched case-insensitively (the matcher
is run in `re.IGNORECASE` mode throughout); if the pattern matches, the
stored value for `k` is the first capturing group of the leftmost match
with surrounding whitespace trimmed, and if it does not match anywhere the
field name is absent from the result mapping. -/
theorem c5_first_match_semantics (text : String) (pats : List (String × Pat))
    (k : String) (p : Pat) (hnd : (pats.map Prod.fst).Nodup)
    (hmem : (k, p) ∈ pats) :
    dictGet (_extract_with_patterns text pats) k =
      Option.map stripStr (leftmostCap p text.data)
    ∧ (leftmostCap p text.data = none →
        k ∉ dictKeys (_extract_with_patterns text pats)) := by
  have h := dictGet_extract_with_patterns text pats k p hnd hmem
  rw [findall_head_eq_leftmostCap] at h
  refine ⟨h, fun hn => ?_⟩
  rw [← dictGet_eq_none_iff, h, hn]
  rfl

/-- Witness for C5 at a concrete rule set and text. -/
theorem c5_first_match_semantics_witness :
    (lease_patterns.map Prod.fst).Nodup ∧
    ("tenant_name", tenant_name_pat) ∈ lease_patterns ∧
    (dictGet (_extract_with_patterns "Tenant: Bob" lease_patterns) "tenant_name" =
        Option.map stripStr (leftmostCap tenant_name_pat "Tenant: Bob".data)
     ∧ (leftmostCap tenant_name_pat "Tenant: Bob".data = none →
        "tenant_name" ∉ dictKeys (_extract_with_patterns "Tenant: Bob" lease_patterns))) :=
  ⟨by decide, by unfold lease_patterns; exact List.mem_cons_self _ _,
   c5_first_match_semantics "Tenant: Bob" lease_patterns "tenant_name" tenant_name_pat
     (by decide) (by unfold lease_patterns; exact List.mem_cons_self _ _)⟩

/-- C8: for any rule of a rule set with distinct field names whose pattern
matches with a capturing group that captures the empty string (the first
`findall` capture is empty), the engine stores the empty string as that
field's value — the key is present with value `""`, observably distinct
from an unmatched rule, whose key is absent. -/
theorem c8_empty_capture_stored (text : String) (pats : List (String × Pat))
    (k : String) (p : Pat) (hnd : (pats.map Prod.fst).Nodup)
    (hmem : (k, p) ∈ pats)
    (hcap : (findall p text.data).head? = some []) :
    dictGet (_extract_with_patterns text pats) k = some "" := by
  rw [dictGet_extract_with_patterns text pats k p hnd hmem, hcap]
  rfl

/-- Witness for C8: the rule `a(b*)` on the text `"xa"` matches with an
empty capture, and the result maps the field to `""`. -/
theorem c8_empty_capture_stored_witness :
    (([("f", empty_capture_demo)].map Prod.fst).Nodup ∧
     ("f", empty_capture_demo) ∈ [("f", empty_capture_demo)] ∧
     (findall empty_capture_demo "xa".data).head? = some []) ∧
    dictGet (_extract_with_patterns "xa" [("f", empty_capture_demo)]) "f" = some "" :=
  ⟨⟨by decide, List.mem_cons_self _ _, by decide⟩,
   c8_empty_capture_stored "xa" [("f", empty_capture_demo)] "f" empty_capture_demo
     (by decide) (List.mem_cons_self _ _) (by decide)⟩

/-- C9: for every text and every document type string other than lease,
invoice and id_document — not only "unknown" — extract_entities takes the
fallback branch and returns the same merged result as for the unknown
type; no label is rejected and no error is raised. -/
theorem c9_unlisted_label_is_unknown (text dt : String) (h1 : dt ≠ "lease")
    (h2 : dt ≠ "invoice") (h3 : dt ≠ "id_document") :
    extract_entities text dt = extract_entities text "unknown" := by
  unfold extract_entities
  rw [if_neg h1, if_neg h2, if_neg h3,
      if_neg (by decide), if_neg (by decide), if_neg (by decide)]

/-- Witness for C9 at the out-of-set label "receipt". -/
theorem c9_unlisted_label_is_unknown_witness :
    (("receipt" : String) ≠ "lease" ∧ ("receipt" : String) ≠ "invoice" ∧
     ("receipt" : String) ≠ "id_document") ∧
    extract_entities "Date: 01/15/2024" "receipt" =
      extract_entities "Date: 01/15/2024" "unknown" :=
  ⟨⟨by decide, by decide, by decide⟩,
   c9_unlisted_label_is_unknown "Date: 01/15/2024" "receipt"
     (by decide) (by decide) (by decide)⟩

/-- C10: for every text, the id_document extraction gives date_of_birth
and expiry_date identical lookup results — the key date_of_birth is
present iff expiry_date is, and then with equal values — because both
rules carry the same date-shaped pattern and each takes the leftmost
match. -/
theorem c10_dob_eq_expiry (text : String) :
    dictGet (_extract_id_entities text) "date_of_birth" =
      dictGet (_extract_id_entities text) "expiry_date" := by
  unfold _extract_id_entities
  rw [dictGet_extract_with_patterns text id_patterns "date_of_birth" date_of_birth_pat
        (by decide)
        (by unfold id_patterns
            exact List.mem_cons_of_mem _ (List.mem_cons_self _ _)),
      dictGet_extract_with_patterns text id_patterns "expiry_date" expiry_date_pat
        (by decide)
        (by unfold id_patterns
            exact List.mem_cons_of_mem _ (List.mem_cons_of_mem _
              (List.mem_cons_of_mem _ (List.mem_cons_self _ _))))]
  rfl

/-- C3 counterexample: on the exact lease scenario text, the extracted
tenant_name is not "John Smith" — the greedy capturing group
`[A-Za-z\s\.]+` runs across the newline and stops only at the next colon,
so it captures "John Smith\nProperty Address". -/
theorem c3_counterexample :
    dictGet (extract_entities leaseSampleText "lease") "tenant_name" ≠
      some "John Smith" := by
  decide

/-- C3 (amended): for the lease scenario text with documentType = lease,
the entity map contains tenant_name = "John Smith\nProperty Address"
(the capture extends past "John Smith" to the character before the next
colon), lease_term = "12 months", rent_amount = "$2000.00", and
security_deposit = "$2000.00". -/
theorem c3_lease_scenario :
    dictGet (extract_entities leaseSampleText "lease") "tenant_name" =
        some "John Smith\nProperty Address"
    ∧ dictGet (extract_entities leaseSampleText "lease") "lease_term" =
        some "12 months"
    ∧ dictGet (extract_entities leaseSampleText "lease") "rent_amount" =
        some "$2000.00"
    ∧ dictGet (extract_entities leaseSampleText "lease") "security_deposit" =
        some "$2000.00" := by
  have h : extract_entities leaseSampleText "lease" =
      [("tenant_name", "John Smith\nProperty Address"),
       ("property_address", "Address"),
       ("lease_term", "12 months"),
       ("rent_amount", "$2000.00"),
       ("security_deposit", "$2000.00"),
       ("start_date", "01/01/2024"),
       ("end_date", "12/31/2024")] := by decide
  rw [h]
  exact ⟨rfl, rfl, rfl, rfl⟩

/-- C6: for the invoice scenario text with documentType = invoice, the
entity map contains invoice_date = "01/15/2024", due_date = "02/15/2024",
and total_amount = "$2000.00". -/
theorem c6_invoice_scenario :
    dictGet (extract_entities invoiceSampleText "invoice") "invoice_date" =
        some "01/15/2024"
    ∧ dictGet (extract_entities invoiceSampleText "invoice") "due_date" =
        some "02/15/2024"
    ∧ dictGet (extract_entities invoiceSampleText "invoice") "total_amount" =
        some "$2000.00" := by
  have h : extract_entities invoiceSampleText "invoice" =
      [("invoice_date", "01/15/2024"),
       ("due_date", "02/15/2024"),
       ("total_amount", "$2000.00"),
       ("vendor_name", "Property Management Inc.\nProperty"),
       ("property_unit", "Management Inc")] := by decide
  rw [h]
  exact ⟨rfl, rfl, rfl⟩

/-- C7: for each of the four document type labels, extracting from the
empty string returns an empty mapping. -/
theorem c7_empty_text_empty_map :
    extract_entities "" "lease" = [] ∧ extract_entities "" "invoice" = []
    ∧ extract_entities "" "id_document" = []
    ∧ extract_entities "" "unknown" = [] :=
  ⟨by decide, by decide, by decide, by decide⟩

/-- C4: whenever the extracted text is empty or whitespace-only
(`text.strip()` is falsy), process_document returns — without raising — a
record containing exactly the error message "No text could be extracted
from document" and the file name, with documentType, entities, rawText,
processing date and text length all absent. -/
theorem c4_no_text_error_record (classify : String → String)
    (now file_name text : String) (h : pyStrip text.data = []) :
    process_document classify now file_name text =
      { error := some "No text could be extracted from document",
        document_type := none, extracted_text := none, entities := none,
        processing_date := none, file_name := file_name,
        text_length := none } := by
  unfold process_document
  rw [if_pos h]

/-- Witness for C4 at a whitespace-only text. -/
theorem c4_no_text_error_record_witness :
    pyStrip "  \n\t ".data = [] ∧
    process_document (fun _ => "unknown") "t0" "doc.txt" "  \n\t " =
      { error := some "No text could be extracted from document",
        document_type := none, extracted_text := none, entities := none,
        processing_date := none, file_name := "doc.txt",
        text_length := none } :=
  ⟨by decide,
   c4_no_text_error_record (fun _ => "unknown") "t0" "doc.txt" "  \n\t "
     (by decide)⟩

/-- C2 counterexample: the core itself truncates — on a 1001-character
extracted text, the raw-text field of the returned record is not the full
text (it is the first 1000 characters with "..." appended). -/
theorem c2_counterexample :
    (process_document (fun _ => "unknown") "t0" "doc.txt" longSampleText).extracted_text
      ≠ some longSampleText := by
  decide

/-- C2 (amended): for every non-empty, non-whitespace-only extracted text,
the record's text-length field equals the character count of the full
text; the raw-text field carries the full text when it has at most 1000
characters and otherwise its first 1000 characters followed by "..." (the
display truncation is performed in the core); entity extraction still runs
against the full text. -/
theorem c2_record_fields (classify : String → String)
    (now file_name text : String) (h : pyStrip text.data ≠ []) :
    (process_document classify now file_name text).text_length =
        some text.length
    ∧ (process_document classify now file_name text).extracted_text =
        some (if text.length > 1000 then String.mk (text.data.take 1000) ++ "..."
              else text)
    ∧ (process_document classify now file_name text).entities =
        some (extract_entities text (classify text)) := by
  unfold process_document
  rw [if_neg h]
  exact ⟨rfl, rfl, rfl⟩

/-- Witness for C2 (amended) at a short text. -/
theorem c2_record_fields_witness :
    pyStrip "hello".data ≠ [] ∧
    ((process_document (fun _ => "unknown") "t0" "doc.txt" "hello").text_length =
        some "hello".length
     ∧ (process_document (fun _ => "unknown") "t0" "doc.txt" "hello").extracted_text =
        some (if "hello".length > 1000 then
                String.mk ("hello".data.take 1000) ++ "..."
              else "hello")
     ∧ (process_document (fun _ => "unknown") "t0" "doc.txt" "hello").entities =
        some (extract_entities "hello" ((fun _ => "unknown") "hello"))) :=
  ⟨by decide,
   c2_record_fields (fun _ => "unknown") "t0" "doc.txt" "hello" (by decide)⟩
